import Mathlib

/-!
Verification development for the profile-viewer component
(source/ps/ProfileViewer.h of the Pyrogenesis engine).

The repository ships only the header: method bodies of `CProfileViewer`
and the destructor of `AbstractProfileTable` are declared there but not
included. Definitions below that embed those bodies are therefore
modelled from the design specification (spec.md) and carry a doc comment
saying so; the remaining definitions (`ProfileColumn`, the default
`IsHighlightRow`) are translated directly from the header.

Tables are identified by identity (a `TableId`); a table graph is a
finite association list from identities to table data. Mutation-free
Lean functions model the viewer operations by explicit state passing.
-/

/-- One column of a profile table, translated from `struct ProfileColumn`
in ProfileViewer.h: a title (`CStr title`) and a recommended pixel width
(`uint width`), set by the constructor `ProfileColumn(const CStr& t, uint w)`. -/
structure ProfileColumn where
  title : String
  width : Nat
deriving DecidableEq

/-- Table identity: tables are keyed by object identity (the C++ code
uses the object address; we use an abstract numeric identity). -/
abbrev TableId := Nat

/-- The data model behind one `AbstractProfileTable` implementation:
name, title, row count, column schema, cell text, optional per-row child
table (by identity) and per-row highlight flag. -/
structure TableData where
  name : String
  title : String
  numberRows : Nat
  columns : List ProfileColumn
  cellText : Nat → Nat → String
  child : Nat → Option TableId
  highlight : Nat → Bool

/-- Default implementation of `AbstractProfileTable::IsHighlightRow`,
translated from the header: `{ UNUSED2(row); return false; }`. -/
def defaultIsHighlightRow (row : Nat) : Bool :=
  false

/-- A table graph: the set of currently live table instances, as a finite
association list from identity to data. Child references may form cycles. -/
structure Env where
  tables : List (TableId × TableData)

/-- Look up a live table by identity. -/
def Env.lookup (env : Env) (t : TableId) : Option TableData :=
  match env.tables.find? (fun p => p.1 == t) with
  | none => none
  | some p => some p.2

/-- Identities of all live tables. -/
def Env.ids (env : Env) : List TableId :=
  env.tables.map Prod.fst

/-- `GetNumberRows` through the environment (0 for a dangling identity). -/
def Env.getNumberRows (env : Env) (t : TableId) : Nat :=
  match env.lookup t with
  | none => 0
  | some td => td.numberRows

/-- `GetCellText` through the environment. -/
def Env.getCellText (env : Env) (t : TableId) (row col : Nat) : String :=
  match env.lookup t with
  | none => ""
  | some td => td.cellText row col

/-- `GetName` through the environment. -/
def Env.getName (env : Env) (t : TableId) : String :=
  match env.lookup t with
  | none => ""
  | some td => td.name

/-- `GetTitle` through the environment. -/
def Env.getTitle (env : Env) (t : TableId) : String :=
  match env.lookup t with
  | none => ""
  | some td => td.title

/-- `GetColumns` through the environment. -/
def Env.getColumns (env : Env) (t : TableId) : List ProfileColumn :=
  match env.lookup t with
  | none => []
  | some td => td.columns

/-- `GetChild` through the environment: the child table of a row, if any. -/
def Env.childAt (env : Env) (t : TableId) (row : Nat) : Option TableId :=
  match env.lookup t with
  | none => none
  | some td => td.child row

/-- `IsHighlightRow` through the environment. -/
def Env.getHighlight (env : Env) (t : TableId) (row : Nat) : Bool :=
  match env.lookup t with
  | none => false
  | some td => td.highlight row

/-- All child tables of a table, one `GetChild` call per row. -/
def Env.kids (env : Env) (t : TableId) : List TableId :=
  match env.lookup t with
  | none => []
  | some td => (List.range td.numberRows).filterMap td.child

/-- Erase the highlight flags of one table, keeping all data semantics. -/
def TableData.clearHighlight (td : TableData) : TableData :=
  { td with highlight := fun _ => false }

/-- Erase the highlight flags of every table in the graph. -/
def Env.clearHighlight (env : Env) : Env :=
  ⟨env.tables.map (fun p => (p.1, p.2.clearHighlight))⟩

/-- Reaction of an input handler, from lib/input.h: `IN_HANDLED` consumes
the event, `IN_PASS` leaves it for other handlers. -/
inductive InReaction where
  | IN_PASS
  | IN_HANDLED
deriving DecidableEq

/-- The input gestures the profile display recognizes, plus an opaque
code for every other event. Modelled from the spec: toggle visibility,
move selection up/down, expand into the child, collapse to the parent,
cycle among root tables. -/
inductive PEvent where
  | toggleVis
  | selUp
  | selDown
  | expand
  | collapse
  | cycleRoot
  | other (code : Nat)
deriving DecidableEq

/-- Whether an event is one of the profile-display gestures. -/
def isProfileGesture : PEvent → Bool
  | .other _ => false
  | _ => true

/-- Viewer state, modelled from the spec: the root-table registry, the
navigation path (a stack of (table, selected-row) frames, head = the
frame currently viewed), and the display flag. -/
structure ViewerState where
  rootTables : List TableId
  path : List (TableId × Nat)
  enabled : Bool
deriving DecidableEq

/-- Initial viewer state, modelled from the spec: collapsed (empty
navigation path), display disabled, no root tables registered. -/
def initialState : ViewerState :=
  ⟨[], [], false⟩

/-- The identity of the table currently viewed (foot of the path). -/
def viewedTable (st : ViewerState) : Option TableId :=
  match st.path with
  | [] => none
  | (t, _) :: _ => some t

/-- Modelled from the spec: `CProfileViewer::AddRootTable` (body not in
the repository snapshot) inserts the table into the root-table registry;
a no-op when already present (the spec leaves this implementation
choice open and we pick idempotent insertion). -/
def AddRootTable (st : ViewerState) (t : TableId) : ViewerState :=
  if t ∈ st.rootTables then st
  else { st with rootTables := st.rootTables ++ [t] }

/-- Modelled from the spec: the deregistration performed by
`AbstractProfileTable::~AbstractProfileTable` (body not in the
repository snapshot). Destruction synchronously removes the table from
the root-table registry and from any navigation-path frame holding it. -/
def destroyTable (st : ViewerState) (t : TableId) : ViewerState :=
  { st with
    rootTables := st.rootTables.filter (fun x => x != t),
    path := st.path.filter (fun f => f.1 != t) }

/-- The root table cyclically following `b` in the registry order:
the element after the first occurrence of `b`, wrapping to the front. -/
def cycleNextAfter (b : TableId) : List TableId → Option TableId
  | [] => none
  | x :: xs => if x == b then xs.head? else cycleNextAfter b xs

/-- Modelled from the spec: `CProfileViewer::Input` (body not in the
repository snapshot). Recognized gestures are consumed (`IN_HANDLED`);
everything else passes through (`IN_PASS`). Toggle flips the display
flag, materializing the base frame at the first root when enabling from
the collapsed state; up/down move the top frame's selected row among the
visible rows; expand pushes a frame for the selected row's child when
one exists; collapse pops unless at depth 1, where it is a no-op (the
policy this model picks); root-cycle replaces the path with the next
root table. -/
def Input (env : Env) (st : ViewerState) (ev : PEvent) : ViewerState × InReaction :=
  match ev with
  | .toggleVis =>
    if st.enabled then ({ st with enabled := false }, .IN_HANDLED)
    else
      match st.path, st.rootTables with
      | [], r :: _ => ({ st with enabled := true, path := [(r, 0)] }, .IN_HANDLED)
      | _, _ => ({ st with enabled := true }, .IN_HANDLED)
  | .selUp =>
    match st.path with
    | [] => (st, .IN_HANDLED)
    | (t, r) :: rest => ({ st with path := (t, r - 1) :: rest }, .IN_HANDLED)
  | .selDown =>
    match st.path with
    | [] => (st, .IN_HANDLED)
    | (t, r) :: rest =>
      let r' := if r + 1 < env.getNumberRows t then r + 1 else r
      ({ st with path := (t, r') :: rest }, .IN_HANDLED)
  | .expand =>
    match st.path with
    | [] => (st, .IN_HANDLED)
    | (t, r) :: rest =>
      match env.childAt t r with
      | none => (st, .IN_HANDLED)
      | some c => ({ st with path := (c, 0) :: (t, r) :: rest }, .IN_HANDLED)
  | .collapse =>
    match st.path with
    | [] => (st, .IN_HANDLED)
    | [_] => (st, .IN_HANDLED)
    | _ :: rest => ({ st with path := rest }, .IN_HANDLED)
  | .cycleRoot =>
    match st.rootTables with
    | [] => (st, .IN_HANDLED)
    | r :: rs =>
      let nxt :=
        match st.path.getLast? with
        | none => r
        | some (b, _) =>
          match cycleNextAfter b (r :: rs) with
          | some n => n
          | none => r
      ({ st with path := [(nxt, 0)] }, .IN_HANDLED)
  | .other _ => (st, .IN_PASS)

/-- Modelled from the spec: `CProfileViewer::InputThunk` (body not in the
repository snapshot). Forwards to the singleton's `Input` when the
singleton exists (`some st`), otherwise passes the event through with no
action. -/
def InputThunk (env : Env) (g : Option ViewerState) (ev : PEvent) :
    Option ViewerState × InReaction :=
  match g with
  | none => (none, .IN_PASS)
  | some st =>
    match Input env st ev with
    | (st', r) => (some st', r)

/-- One text row of a table: the cell texts of the row, tab-separated. -/
def tableCellRow (env : Env) (t : TableId) (row : Nat) : String :=
  String.intercalate "\t"
    ((List.range (env.getColumns t).length).map (fun c => env.getCellText t row c))

/-- One displayed row: highlight marker (per `IsHighlightRow`) plus the
cell texts. -/
def renderRowLine (env : Env) (t : TableId) (row : Nat) : String :=
  (if env.getHighlight t row then "* " else "  ") ++ tableCellRow env t row

/-- The draw intent for one table: title, column headers, then one line
per row. -/
def renderTableLines (env : Env) (t : TableId) : List String :=
  env.getTitle t ::
    String.intercalate "\t" ((env.getColumns t).map ProfileColumn.title) ::
    (List.range (env.getNumberRows t)).map (renderRowLine env t)

/-- Modelled from the spec: `CProfileViewer::RenderProfile` (body not in
the repository snapshot). When the display flag is off it does nothing;
when on it is a pure read-and-draw pass over the table at the foot of
the navigation path. The table graph is returned unchanged, making
explicit that table data is never mutated. -/
def RenderProfile (env : Env) (st : ViewerState) : Env × ViewerState × List String :=
  if st.enabled then
    match st.path with
    | [] => (env, st, [])
    | (t, _) :: _ => (env, st, renderTableLines env t)
  else (env, st, [])

/-- Table graph and viewer state after calling `RenderProfile` n times. -/
def iterRender (env : Env) (st : ViewerState) : Nat → Env × ViewerState
  | 0 => (env, st)
  | n + 1 =>
    match RenderProfile env st with
    | (e, s, _) => iterRender e s n

/-- Number of live table identities not yet visited: the termination
measure of the depth-first traversal. -/
def unvisitedCount (ids visited : List TableId) : Nat :=
  (ids.toFinset \ visited.toFinset).card

/-- Depth-first traversal over a table graph with identity set `ids` and
child map `kids`, guarded by a visited set: a table is emitted (and its
children pushed) only when live and not yet visited, so the traversal
terminates on every graph, cyclic ones included. Returns the emission
order. -/
def dfsAux (ids : List TableId) (kids : TableId → List TableId)
    (ws : List TableId) (visited : List TableId) : List TableId :=
  match ws with
  | [] => []
  | t :: rest =>
    if t ∈ visited then dfsAux ids kids rest visited
    else if ht : t ∈ ids then
      t :: dfsAux ids kids (kids t ++ rest) (t :: visited)
    else dfsAux ids kids rest visited
termination_by (unvisitedCount ids visited, ws.length)
decreasing_by
  · apply Prod.Lex.right
    simp
  · apply Prod.Lex.left
    unfold unvisitedCount
    apply Finset.card_lt_card
    simp only [List.toFinset_cons]
    rename_i hnv
    rw [Finset.ssubset_iff_of_subset
      (Finset.sdiff_subset_sdiff (Finset.Subset.refl _) (Finset.subset_insert _ _))]
    refine ⟨_, Finset.mem_sdiff.mpr
      ⟨List.mem_toFinset.mpr ht, fun hc => hnv (List.mem_toFinset.mp hc)⟩, ?_⟩
    intro hc
    rw [Finset.mem_sdiff] at hc
    exact hc.2 (Finset.mem_insert_self _ _)
  · apply Prod.Lex.right
    simp

/-- Modelled from the spec: the table order in which `SaveToFile` visits
the registered root tables and their descendant trees. -/
def saveOrder (env : Env) (roots : List TableId) : List TableId :=
  dfsAux env.ids env.kids roots []

/-- The text lines `SaveToFile` writes for one table: name, title,
column headers, then one line per row. -/
def dumpTableLines (env : Env) (t : TableId) : List String :=
  env.getName t :: env.getTitle t ::
    String.intercalate "\t" ((env.getColumns t).map ProfileColumn.title) ::
    (List.range (env.getNumberRows t)).map (tableCellRow env t)

/-- Modelled from the spec: `CProfileViewer::SaveToFile` (body not in
the repository snapshot). Depth-first dump, guarded by the visited set,
of every registered root table and its descendants; the returned lines
are the text written to the log file. -/
def SaveToFile (env : Env) (st : ViewerState) : List String :=
  ((saveOrder env st.rootTables).map (dumpTableLines env)).flatten

/-- Child table C of the §8 scenario: one row, one column, no children.
Registered under identity 1. -/
def tableChildC : TableData :=
  { name := "C", title := "Child table", numberRows := 1,
    columns := [⟨"Name", 100⟩],
    cellText := fun _ _ => "c00",
    child := fun _ => none,
    highlight := fun _ => false }

/-- Root table T of the §8 scenario: columns Name and Time, three rows,
row 1 drilling down into table C (identity 1). Registered under
identity 0. -/
def tableRootT : TableData :=
  { name := "T", title := "Main table", numberRows := 3,
    columns := [⟨"Name", 100⟩, ⟨"Time", 50⟩],
    cellText := fun row col => "t" ++ toString row ++ toString col,
    child := fun row => if row == 1 then some 1 else none,
    highlight := fun _ => false }

/-- The table graph of the §8 scenario: T (identity 0) and C (identity 1). -/
def envTC : Env :=
  ⟨[(0, tableRootT), (1, tableChildC)]⟩

/-- Table T with a highlight hint on row 0, otherwise identical to T. -/
def tableRootTH : TableData :=
  { tableRootT with highlight := fun row => row == 0 }

/-- The scenario table graph with highlighting differences only. -/
def envTCH : Env :=
  ⟨[(0, tableRootTH), (1, tableChildC)]⟩

/-- A table whose single row's child is table 1: half of a two-table cycle. -/
def tableLoopA : TableData :=
  { name := "A", title := "Loop A", numberRows := 1,
    columns := [⟨"Name", 80⟩],
    cellText := fun _ _ => "a00",
    child := fun _ => some 1,
    highlight := fun _ => false }

/-- A table whose single row's child is table 0: the other half of the cycle. -/
def tableLoopB : TableData :=
  { name := "B", title := "Loop B", numberRows := 1,
    columns := [⟨"Name", 80⟩],
    cellText := fun _ _ => "b00",
    child := fun _ => some 0,
    highlight := fun _ => false }

/-- A cyclic table graph: 0 and 1 are each other's children. -/
def envLoop : Env :=
  ⟨[(0, tableLoopA), (1, tableLoopB)]⟩

/-- Viewer state with the cyclic graph's table 0 registered as a root. -/
def stLoop : ViewerState :=
  AddRootTable initialState 0

/-- Scenario step 0: table T registered as a root table. -/
def scenario0 : ViewerState :=
  AddRootTable initialState 0

/-- Scenario step 1: display toggled on; T viewed with row 0 selected. -/
def scenario1 : ViewerState :=
  (Input envTC scenario0 .toggleVis).1

/-- Scenario step 2: selection moved down to row 1 of T. -/
def scenario2 : ViewerState :=
  (Input envTC scenario1 .selDown).1

/-- Scenario step 3: row 1 expanded into child table C. -/
def scenario3 : ViewerState :=
  (Input envTC scenario2 .expand).1

/-- Scenario step 4: collapsed back from C. -/
def scenario4 : ViewerState :=
  (Input envTC scenario3 .collapse).1

/-- Claim C1: a table registered via AddRootTable is, after its
destruction, absent from the root-table registry and from every
navigation-path frame — the deregistration modelled by `destroyTable` is
performed synchronously by the destructor itself. -/
theorem destroyed_table_absent (st : ViewerState) (t : TableId) :
    t ∉ (destroyTable (AddRootTable st t) t).rootTables ∧
    ∀ f ∈ (destroyTable (AddRootTable st t) t).path, f.1 ≠ t := by
  constructor
  · intro hmem
    simp [destroyTable, List.mem_filter] at hmem
  · intro f hf
    simp [destroyTable, List.mem_filter] at hf
    exact hf.2

/-- Spot check of destroyed_table_absent: registering table 0 into a
state whose navigation path holds frames for tables 0 and 5 and then
destroying table 0 leaves registry and path without table 0. -/
theorem destroyed_table_absent_spot :
    0 ∉ (destroyTable (AddRootTable ⟨[5], [(0, 2), (5, 1)], true⟩ 0) 0).rootTables ∧
    (5, 1).1 ≠ 0 ∧
    (destroyTable (AddRootTable ⟨[5], [(0, 2), (5, 1)], true⟩ 0) 0).path = [(5, 1)] :=
  ⟨(destroyed_table_absent ⟨[5], [(0, 2), (5, 1)], true⟩ 0).1,
   (destroyed_table_absent ⟨[5], [(0, 2), (5, 1)], true⟩ 0).2 (5, 1) (by decide),
   by decide⟩

/-- Claim C2: InputThunk forwards the event to the singleton's Input
exactly when the singleton exists; with no singleton it returns
IN_PASS and performs no action, leaving the event for other handlers. -/
theorem inputThunk_guard (env : Env) (ev : PEvent) :
    InputThunk env none ev = (none, InReaction.IN_PASS) ∧
    ∀ st : ViewerState,
      InputThunk env (some st) ev = (some (Input env st ev).1, (Input env st ev).2) :=
  ⟨rfl, fun _ => rfl⟩

/-- Claim C7: the §8 scenario: register T, enable the display, move the
selection to row 1, expand into child C, collapse; the viewer again
shows T with row 1 selected — an expand-then-collapse round trip
restores the previous navigation state. -/
theorem expand_collapse_round_trip :
    scenario1.enabled = true ∧ scenario1.path = [(0, 0)] ∧
    scenario2.path = [(0, 1)] ∧
    scenario3.path = [(1, 0), (0, 1)] ∧ viewedTable scenario3 = some 1 ∧
    scenario4 = scenario2 ∧ viewedTable scenario4 = some 0 ∧
    scenario4.path = [(0, 1)] ∧
    (RenderProfile envTC scenario1).2.2.length = 2 + 3 := by
  decide

/-- Claim C8: AddRootTable inserts the table into the root-table
registry; the registry supports identity-keyed removal; the initial
state is collapsed with the display disabled; and AddRootTable is safe
before the first RenderProfile, which in that state has no effect. -/
theorem addRootTable_registry (env : Env) (st : ViewerState) (t u : TableId) :
    t ∈ (AddRootTable st t).rootTables ∧
    u ∉ (destroyTable st u).rootTables ∧
    initialState.path = [] ∧ initialState.enabled = false ∧
    initialState.rootTables = [] ∧
    RenderProfile env (AddRootTable initialState t) =
      (env, AddRootTable initialState t, []) := by
  refine ⟨?_, ?_, rfl, rfl, rfl, ?_⟩
  · unfold AddRootTable
    split
    · assumption
    · simp
  · intro hmem
    simp [destroyTable, List.mem_filter] at hmem
  · have h : (AddRootTable initialState t).enabled = false := by
      simp [AddRootTable, initialState]
    simp [RenderProfile, h]

/-- Spot check of addRootTable_registry: table 7 is present after
registration and absent after destruction. -/
theorem addRootTable_registry_spot :
    7 ∈ (AddRootTable initialState 7).rootTables ∧
    7 ∉ (destroyTable (AddRootTable initialState 7) 7).rootTables :=
  ⟨(addRootTable_registry envTC initialState 7 7).1,
   (addRootTable_registry envTC (AddRootTable initialState 7) 7 7).2.1⟩

/-- Claim C10: a ProfileColumn is a value fixed at construction: the
constructor stores title and width unchanged, and every ProfileColumn
is nothing but its constructed fields, so no operation of this
component can alter a constructed column's title or width. -/
theorem profileColumn_immutable (t : String) (w : Nat) :
    (ProfileColumn.mk t w).title = t ∧ (ProfileColumn.mk t w).width = w ∧
    ∀ c : ProfileColumn, c = ProfileColumn.mk c.title c.width :=
  ⟨rfl, rfl, fun _ => rfl⟩

/-- RenderProfile returns the table graph and viewer state unchanged in
every branch. -/
theorem renderProfile_components (env : Env) (st : ViewerState) :
    (RenderProfile env st).1 = env ∧ (RenderProfile env st).2.1 = st := by
  unfold RenderProfile
  split
  · split <;> exact ⟨rfl, rfl⟩
  · exact ⟨rfl, rfl⟩

/-- Iterating RenderProfile any number of times is the identity on the
table graph and the viewer state. -/
theorem iterRender_fixed (env : Env) (st : ViewerState) :
    ∀ n, iterRender env st n = (env, st) := by
  intro n
  induction n with
  | zero => rfl
  | succ k ih =>
    have hre : RenderProfile env st = (env, st, (RenderProfile env st).2.2) := by
      rcases hr : RenderProfile env st with ⟨e, s, out⟩
      have h1 := (renderProfile_components env st).1
      have h2 := (renderProfile_components env st).2
      rw [hr] at h1 h2
      simp only at h1 h2
      rw [h1, h2]
    unfold iterRender
    rw [hre]
    exact ih

/-- Claim C3: RenderProfile with the display disabled does nothing (the
graph, the state and the draw output are all trivial), and no call
mutates table data: after any number N of renders the table graph, and
hence every GetNumberRows and GetCellText result, is unchanged. -/
theorem renderProfile_no_mutation (env : Env) (st : ViewerState) :
    (st.enabled = false → RenderProfile env st = (env, st, [])) ∧
    (RenderProfile env st).1 = env ∧ (RenderProfile env st).2.1 = st ∧
    ∀ n t row col,
      Env.getNumberRows (iterRender env st n).1 t = Env.getNumberRows env t ∧
      Env.getCellText (iterRender env st n).1 t row col
        = Env.getCellText env t row col := by
  refine ⟨?_, (renderProfile_components env st).1,
    (renderProfile_components env st).2, ?_⟩
  · intro h
    simp [RenderProfile, h]
  · intro n t row col
    rw [iterRender_fixed env st n]
    exact ⟨rfl, rfl⟩

/-- Spot check of renderProfile_no_mutation: in the initial (disabled)
state rendering does nothing, and five renders leave table 0's row
count untouched. -/
theorem renderProfile_no_mutation_spot :
    initialState.enabled = false ∧
    RenderProfile envTC initialState = (envTC, initialState, []) ∧
    Env.getNumberRows (iterRender envTC initialState 5).1 0
      = Env.getNumberRows envTC 0 :=
  ⟨rfl, (renderProfile_no_mutation envTC initialState).1 rfl,
   ((renderProfile_no_mutation envTC initialState).2.2.2 5 0 0 0).1⟩

/-- Claim C5: the expand gesture pushes a new (table, selected-row)
frame iff GetChild returns a child for the selected row: with a child
the path depth grows by exactly one and the viewed table becomes that
child; without one, expand is a no-op. -/
theorem expand_gesture (env : Env) (st : ViewerState) (t : TableId) (r : Nat)
    (rest : List (TableId × Nat)) (hp : st.path = (t, r) :: rest) :
    (∀ c, env.childAt t r = some c →
      (Input env st .expand).1.path = (c, 0) :: st.path ∧
      (Input env st .expand).1.path.length = st.path.length + 1 ∧
      viewedTable (Input env st .expand).1 = some c) ∧
    (env.childAt t r = none → (Input env st .expand).1 = st) := by
  constructor
  · intro c hc
    simp [Input, hp, hc, viewedTable]
  · intro hc
    simp [Input, hp, hc]

/-- Spot check of expand_gesture in the scenario graph: expanding row 1
of table 0 pushes child 1; expanding row 0 (no child) is a no-op. -/
theorem expand_gesture_spot :
    scenario2.path = [(0, 1)] ∧ Env.childAt envTC 0 1 = some 1 ∧
    (Input envTC scenario2 .expand).1.path = (1, 0) :: scenario2.path ∧
    Env.childAt envTC 0 0 = none ∧
    (Input envTC ⟨[0], [(0, 0)], true⟩ .expand).1 = ⟨[0], [(0, 0)], true⟩ :=
  ⟨by decide, by decide,
   ((expand_gesture envTC scenario2 0 1 [] (by decide)).1 1 (by decide)).1,
   by decide,
   (expand_gesture envTC ⟨[0], [(0, 0)], true⟩ 0 0 [] rfl).2 (by decide)⟩

/-- The reaction component of Input depends only on whether the event
is a recognized gesture. -/
theorem input_reaction (env : Env) (st : ViewerState) (ev : PEvent) :
    (Input env st ev).2
      = if isProfileGesture ev then InReaction.IN_HANDLED else InReaction.IN_PASS := by
  cases ev <;> simp only [Input, isProfileGesture, if_true, if_false] <;>
    (repeat' split) <;> simp_all

/-- Claim C6: Input returns IN_HANDLED exactly for the recognized
profile-display gestures and IN_PASS for every other event, which it
leaves untouched for other input consumers. -/
theorem input_consumes_exactly_gestures (env : Env) (st : ViewerState) (ev : PEvent) :
    ((Input env st ev).2 = InReaction.IN_HANDLED ↔ isProfileGesture ev = true) ∧
    (isProfileGesture ev = false → Input env st ev = (st, InReaction.IN_PASS)) := by
  constructor
  · rw [input_reaction]
    cases h : isProfileGesture ev <;> simp [h]
  · intro h
    cases ev <;> simp [isProfileGesture] at h
    rfl

/-- Spot check of input_consumes_exactly_gestures: an unrecognized event
passes through untouched, the toggle gesture is consumed. -/
theorem input_consumes_spot :
    isProfileGesture (PEvent.other 42) = false ∧
    Input envTC scenario1 (PEvent.other 42) = (scenario1, InReaction.IN_PASS) ∧
    (Input envTC scenario1 PEvent.toggleVis).2 = InReaction.IN_HANDLED :=
  ⟨rfl, (input_consumes_exactly_gestures envTC scenario1 (PEvent.other 42)).2 rfl,
   (input_consumes_exactly_gestures envTC scenario1 PEvent.toggleVis).1.mpr rfl⟩

/-- Every identity the traversal emits was unvisited on entry. -/
theorem dfsAux_not_visited (ids : List TableId) (kids : TableId → List TableId)
    (ws visited : List TableId) :
    ∀ t ∈ dfsAux ids kids ws visited, t ∉ visited := by
  induction ws, visited using dfsAux.induct ids kids with
  | case1 visited => simp [dfsAux]
  | case2 visited x xs hx ih =>
    intro t ht
    exact ih t (by simpa [dfsAux, hx] using ht)
  | case3 visited x xs hnx hids ih =>
    intro t ht
    rw [dfsAux] at ht
    rw [if_neg hnx, dif_pos hids] at ht
    rcases List.mem_cons.mp ht with rfl | hrec
    · exact hnx
    · intro hv
      exact ih t hrec (List.mem_cons_of_mem _ hv)
  | case4 visited x xs hnx hnids ih =>
    intro t ht
    exact ih t (by simpa [dfsAux, hnx, hnids] using ht)

/-- The traversal never emits an identity twice. -/
theorem dfsAux_nodup (ids : List TableId) (kids : TableId → List TableId)
    (ws visited : List TableId) :
    (dfsAux ids kids ws visited).Nodup := by
  induction ws, visited using dfsAux.induct ids kids with
  | case1 visited => simp [dfsAux]
  | case2 visited x xs hx ih => simpa [dfsAux, hx] using ih
  | case3 visited x xs hnx hids ih =>
    rw [dfsAux, if_neg hnx, dif_pos hids]
    refine List.nodup_cons.mpr ⟨?_, ih⟩
    intro hx
    exact dfsAux_not_visited ids kids _ _ x hx (List.mem_cons_self x visited)
  | case4 visited x xs hnx hnids ih => simpa [dfsAux, hnx, hnids] using ih

/-- Every live identity on the worklist is visited or emitted. -/
theorem dfsAux_covers (ids : List TableId) (kids : TableId → List TableId)
    (ws visited : List TableId) :
    ∀ t ∈ ws, t ∈ ids → t ∈ visited ∨ t ∈ dfsAux ids kids ws visited := by
  induction ws, visited using dfsAux.induct ids kids with
  | case1 visited => simp
  | case2 visited x xs hx ih =>
    intro t ht htids
    rcases List.mem_cons.mp ht with rfl | hmem
    · exact Or.inl hx
    · rcases ih t hmem htids with h | h
      · exact Or.inl h
      · right
        simpa [dfsAux, hx] using h
  | case3 visited x xs hnx hids ih =>
    intro t ht htids
    rw [dfsAux, if_neg hnx, dif_pos hids]
    rcases List.mem_cons.mp ht with rfl | hmem
    · exact Or.inr (List.mem_cons_self _ _)
    · rcases ih t (List.mem_append_right (kids x) hmem) htids with h | h
      · rcases List.mem_cons.mp h with rfl | h2
        · exact Or.inr (List.mem_cons_self _ _)
        · exact Or.inl h2
      · exact Or.inr (List.mem_cons_of_mem _ h)
  | case4 visited x xs hnx hnids ih =>
    intro t ht htids
    rcases List.mem_cons.mp ht with rfl | hmem
    · exact absurd htids hnids
    · rcases ih t hmem htids with h | h
      · exact Or.inl h
      · right
        simpa [dfsAux, hnx, hnids] using h

/-- Claim C4: SaveToFile terminates on every table graph, cycles through
GetChild included (its traversal is a total function, guarded by the
visited set), and in its output each distinct table appears exactly
once: the emission order has no duplicate, and every live registered
root table is emitted exactly once. -/
theorem saveToFile_each_table_once (env : Env) (st : ViewerState) :
    (saveOrder env st.rootTables).Nodup ∧
    ∀ t ∈ st.rootTables, t ∈ env.ids →
      (saveOrder env st.rootTables).count t = 1 := by
  constructor
  · exact dfsAux_nodup env.ids env.kids st.rootTables []
  · intro t ht hids
    have hmem : t ∈ saveOrder env st.rootTables := by
      rcases dfsAux_covers env.ids env.kids st.rootTables [] t ht hids with h | h
      · simp at h
      · exact h
    exact List.count_eq_one_of_mem (dfsAux_nodup env.ids env.kids st.rootTables []) hmem

/-- Spot check of saveToFile_each_table_once on a cyclic two-table
graph: the traversal terminates, emits [0, 1], and table 0 is written
exactly once. -/
theorem saveToFile_each_table_once_spot :
    saveOrder envLoop stLoop.rootTables = [0, 1] ∧
    (saveOrder envLoop stLoop.rootTables).Nodup ∧
    (saveOrder envLoop stLoop.rootTables).count 0 = 1 :=
  ⟨by simp [saveOrder, stLoop, AddRootTable, initialState, dfsAux, envLoop,
      Env.ids, Env.kids, Env.lookup, tableLoopA, tableLoopB, List.find?,
      List.range_succ, List.range_zero, List.filterMap_cons, List.filterMap_nil,
      List.filterMap_append],
   (saveToFile_each_table_once envLoop stLoop).1,
   (saveToFile_each_table_once envLoop stLoop).2 0 (by decide) (by decide)⟩

/-- Clearing highlights changes no table lookup beyond its highlight
field. -/
theorem lookup_clearHighlight (env : Env) (t : TableId) :
    Env.lookup (Env.clearHighlight env) t
      = (Env.lookup env t).map TableData.clearHighlight := by
  rcases env with ⟨l⟩
  induction l with
  | nil => rfl
  | cons p rest ih =>
    rcases p with ⟨i, td⟩
    by_cases h : i == t
    · simp [Env.clearHighlight, Env.lookup, List.find?, h]
    · simpa [Env.clearHighlight, Env.lookup, List.find?, h] using ih

/-- Clearing highlights preserves the live-identity list. -/
theorem ids_clearHighlight (env : Env) :
    Env.ids (Env.clearHighlight env) = Env.ids env := by
  simp [Env.ids, Env.clearHighlight]

/-- Clearing highlights preserves every row count. -/
theorem getNumberRows_clearHighlight (env : Env) (t : TableId) :
    Env.getNumberRows (Env.clearHighlight env) t = Env.getNumberRows env t := by
  unfold Env.getNumberRows
  rw [lookup_clearHighlight]
  cases Env.lookup env t <;> rfl

/-- Clearing highlights preserves every cell text. -/
theorem getCellText_clearHighlight (env : Env) (t : TableId) (row col : Nat) :
    Env.getCellText (Env.clearHighlight env) t row col
      = Env.getCellText env t row col := by
  unfold Env.getCellText
  rw [lookup_clearHighlight]
  cases Env.lookup env t <;> rfl

/-- Clearing highlights preserves every table name. -/
theorem getName_clearHighlight (env : Env) (t : TableId) :
    Env.getName (Env.clearHighlight env) t = Env.getName env t := by
  unfold Env.getName
  rw [lookup_clearHighlight]
  cases Env.lookup env t <;> rfl

/-- Clearing highlights preserves every table title. -/
theorem getTitle_clearHighlight (env : Env) (t : TableId) :
    Env.getTitle (Env.clearHighlight env) t = Env.getTitle env t := by
  unfold Env.getTitle
  rw [lookup_clearHighlight]
  cases Env.lookup env t <;> rfl

/-- Clearing highlights preserves every column schema. -/
theorem getColumns_clearHighlight (env : Env) (t : TableId) :
    Env.getColumns (Env.clearHighlight env) t = Env.getColumns env t := by
  unfold Env.getColumns
  rw [lookup_clearHighlight]
  cases Env.lookup env t <;> rfl

/-- Clearing highlights preserves every child reference. -/
theorem childAt_clearHighlight (env : Env) (t : TableId) (row : Nat) :
    Env.childAt (Env.clearHighlight env) t row = Env.childAt env t row := by
  unfold Env.childAt
  rw [lookup_clearHighlight]
  cases Env.lookup env t <;> rfl

/-- Clearing highlights preserves the child map. -/
theorem kids_clearHighlight (env : Env) :
    Env.kids (Env.clearHighlight env) = Env.kids env := by
  funext t
  unfold Env.kids
  rw [lookup_clearHighlight]
  cases Env.lookup env t <;> rfl

/-- Input never reads highlight flags: it is invariant under clearing
them. -/
theorem input_clearHighlight (env : Env) (st : ViewerState) (ev : PEvent) :
    Input (Env.clearHighlight env) st ev = Input env st ev := by
  cases ev <;>
    simp only [Input, getNumberRows_clearHighlight, childAt_clearHighlight]

/-- The SaveToFile export never reads highlight flags: it is invariant
under clearing them. -/
theorem saveToFile_clearHighlight (env : Env) (st : ViewerState) :
    SaveToFile (Env.clearHighlight env) st = SaveToFile env st := by
  have hdump : dumpTableLines (Env.clearHighlight env) = dumpTableLines env := by
    funext t
    unfold dumpTableLines tableCellRow
    simp only [getName_clearHighlight, getTitle_clearHighlight,
      getColumns_clearHighlight, getNumberRows_clearHighlight,
      getCellText_clearHighlight]
  unfold SaveToFile saveOrder
  rw [ids_clearHighlight, kids_clearHighlight, hdump]

/-- Claim C9: the default IsHighlightRow returns false for every row,
and highlighting is advisory only: two table graphs differing only in
highlight flags produce identical Input transitions and identical
SaveToFile output, so registry contents, navigation state and export
content never depend on highlight values. -/
theorem highlight_advisory (env1 env2 : Env)
    (h : Env.clearHighlight env1 = Env.clearHighlight env2) :
    (∀ row, defaultIsHighlightRow row = false) ∧
    (∀ st ev, Input env1 st ev = Input env2 st ev) ∧
    (∀ st, SaveToFile env1 st = SaveToFile env2 st) := by
  refine ⟨fun _ => rfl, ?_, ?_⟩
  · intro st ev
    rw [← input_clearHighlight env1 st ev, h, input_clearHighlight]
  · intro st
    rw [← saveToFile_clearHighlight env1 st, h, saveToFile_clearHighlight]

/-- Spot check of highlight_advisory: the scenario graph with and
without a highlight hint on row 0 of table T agrees on a concrete Input
transition and on the full SaveToFile output. -/
theorem highlight_advisory_spot :
    Env.clearHighlight envTC = Env.clearHighlight envTCH ∧
    Env.getHighlight envTC 0 0 = false ∧ Env.getHighlight envTCH 0 0 = true ∧
    Input envTC scenario1 PEvent.selDown = Input envTCH scenario1 PEvent.selDown ∧
    SaveToFile envTC scenario1 = SaveToFile envTCH scenario1 :=
  ⟨rfl, rfl, rfl,
   (highlight_advisory envTC envTCH rfl).2.1 scenario1 PEvent.selDown,
   (highlight_advisory envTC envTCH rfl).2.2 scenario1⟩
